import Mathlib

/-!
Shallow embedding of `src/elasticsearch_exporter.go`: the metric schema
tables, the exporter state built by `NewExporter`, and the `Collect`
scrape cycle (reset, fetch outcome, decode, remap, publish).

Go maps are embedded as association lists in the source's declaration
order; integer statistics are embedded as `Int` (the `float64`
conversions in the source are exact on these values).  The HTTP fetch
and the JSON decode are abstracted into a `FetchResult` input to
`collect`, covering exactly the four outcomes the source's `Collect`
distinguishes: connection/timeout error, body-read error, unmarshal
error, and a decoded `NodeStatsResponse`.
-/

set_option autoImplicit false

/-- Kind of a metric instrument: Prometheus counter or gauge. -/
inductive Kind where
  | counter
  | gauge
  deriving DecidableEq

/-- Modelled from the spec: per-collector GC stats (the struct file is not
under `src/`; the field accesses `gcstats.CollectionCount` and
`gcstats.CollectionTime` are visible in `Collect`). -/
structure GCStats where
  collectionCount : Int
  collectionTime : Int
  deriving DecidableEq

/-- Modelled from the spec: `jvm.gc` with its mapping from collector name to
GC stats (`stats.JVM.GC.Collectors` in `Collect`). -/
structure GCInfo where
  collectors : List (String × GCStats)
  deriving DecidableEq

/-- Modelled from the spec: `jvm.mem` heap/non-heap figures
(`stats.JVM.Mem.*` in `Collect`). -/
structure MemInfo where
  heapCommitted : Int
  heapUsed : Int
  heapMax : Int
  nonHeapCommitted : Int
  nonHeapUsed : Int
  deriving DecidableEq

/-- Modelled from the spec: the `jvm` sub-record of a node's stats. -/
structure JVMInfo where
  mem : MemInfo
  gc : GCInfo
  deriving DecidableEq

/-- Modelled from the spec: one breaker's stats
(`bstats.EstimatedSize` / `bstats.LimitSize` in `Collect`). -/
structure BreakerStats where
  estimatedSize : Int
  limitSize : Int
  deriving DecidableEq

/-- Modelled from the spec: field-data cache stats
(`stats.Indices.FieldData.*`). -/
structure FieldDataStats where
  memorySize : Int
  evictions : Int
  deriving DecidableEq

/-- Modelled from the spec: filter-cache stats
(`stats.Indices.FilterCache.*`). -/
structure FilterCacheStats where
  memorySize : Int
  evictions : Int
  deriving DecidableEq

/-- Modelled from the spec: document counts (`stats.Indices.Docs.*`). -/
structure DocsStats where
  count : Int
  deleted : Int
  deriving DecidableEq

/-- Modelled from the spec: segment memory (`stats.Indices.Segments.Memory`). -/
structure SegmentsStats where
  memory : Int
  deriving DecidableEq

/-- Modelled from the spec: store stats (`stats.Indices.Store.*`). -/
structure StoreStats where
  size : Int
  throttleTime : Int
  deriving DecidableEq

/-- Modelled from the spec: flush stats (`stats.Indices.Flush.*`). -/
structure FlushStats where
  total : Int
  time : Int
  deriving DecidableEq

/-- Modelled from the spec: indexing stats (`stats.Indices.Indexing.*`). -/
structure IndexingStats where
  indexTotal : Int
  indexTime : Int
  deriving DecidableEq

/-- Modelled from the spec: merge stats (`stats.Indices.Merges.*`; `totalDocs`
is declared in the schema but never read by `Collect`). -/
structure MergesStats where
  total : Int
  totalDocs : Int
  totalSize : Int
  totalTime : Int
  deriving DecidableEq

/-- Modelled from the spec: the `indices` sub-record of a node's stats. -/
structure IndicesStats where
  fieldData : FieldDataStats
  filterCache : FilterCacheStats
  docs : DocsStats
  segments : SegmentsStats
  store : StoreStats
  flush : FlushStats
  indexing : IndexingStats
  merges : MergesStats
  deriving DecidableEq

/-- Modelled from the spec: transport stats (`stats.Transport.*`). -/
structure TransportStats where
  rxCount : Int
  rxSize : Int
  txCount : Int
  txSize : Int
  deriving DecidableEq

/-- Modelled from the spec: one node's stats record (`NodeStats`). -/
structure NodeStats where
  jvm : JVMInfo
  breakers : List (String × BreakerStats)
  indices : IndicesStats
  transport : TransportStats
  deriving DecidableEq

/-- Modelled from the spec: the decode target of the remote payload
(`allStats.ClusterName`, `allStats.Nodes` in `Collect`). -/
structure NodeStatsResponse where
  clusterName : String
  nodes : List (String × NodeStats)
  deriving DecidableEq

/-- Help text and extra label names of a vector metric (`VecInfo`). -/
structure VecInfo where
  help : String
  labels : List String
  deriving DecidableEq

/-- The `gaugeMetrics` table: scalar gauges, name to help text. -/
def gaugeMetrics : List (String × String) :=
  [("indices_fielddata_memory_size_bytes", "Field data cache memory usage in bytes"),
   ("indices_filter_cache_memory_size_bytes", "Field data cache memory usage in bytes"),
   ("indices_docs", "Count of documents on this node"),
   ("indices_docs_deleted", "Count of deleted documents on this node"),
   ("indices_store_size_bytes", "Current size of stored index data in bytes"),
   ("indices_segments_memory_bytes", "Current memory size of segments in bytes"),
   ("jvm_mem_heap_committed_bytes", "JVM heap memory currently committed"),
   ("jvm_mem_heap_used_bytes", "JVM heap memory currently used"),
   ("jvm_mem_heap_max_bytes", "JVM heap memory max"),
   ("jvm_mem_non_heap_committed_bytes", "JVM non-heap memory currently committed"),
   ("jvm_mem_non_heap_used_bytes", "JVM non-heap memory currently used")]

/-- The `counterMetrics` table: scalar counters, name to help text. -/
def counterMetrics : List (String × String) :=
  [("indices_fielddata_evictions", "Evictions from field data"),
   ("indices_filter_cache_evictions", "Evictions from field data"),
   ("indices_flush_total", "Total flushes"),
   ("indices_flush_time_ms_total", "Cumulative flush time in milliseconds"),
   ("transport_rx_packets_total", "Count of packets received"),
   ("transport_rx_size_bytes_total", "Total number of bytes received"),
   ("transport_tx_packets_total", "Count of packets sent"),
   ("transport_tx_size_bytes_total", "Total number of bytes sent"),
   ("indices_store_throttle_time_ms_total", "Throttle time for index store in milliseconds"),
   ("indices_indexing_index_total", "Total index calls"),
   ("indices_indexing_index_time_ms_total", "Cumulative index time in milliseconds"),
   ("indices_merges_total", "Total merges"),
   ("indices_merges_total_docs_total", "Cumulative docs merged"),
   ("indices_merges_total_size_bytes_total", "Total merge size in bytes"),
   ("indices_merges_total_time_ms_total", "Total time spent merging in milliseconds")]

/-- The `counterVecMetrics` table: counters with an extra dimension label. -/
def counterVecMetrics : List (String × VecInfo) :=
  [("jvm_gc_collections", ⟨"Count of JVM GC runs", ["collector"]⟩),
   ("jvm_gc_collections_time_ms", ⟨"GC run time in milliseconds", ["collector"]⟩)]

/-- The `gaugeVecMetrics` table: gauges with an extra dimension label. -/
def gaugeVecMetrics : List (String × VecInfo) :=
  [("breakers_estimated_size_bytes", ⟨"Estimated size in bytes of breaker", ["breaker"]⟩),
   ("breakers_limit_size_bytes", ⟨"Limit size in bytes for breaker", ["breaker"]⟩)]

/-- A live vector instrument (`prometheus.GaugeVec` / `prometheus.CounterVec`):
its fixed label-name order and its current children, one series per
label-value combination, in insertion order. -/
structure MetricVec where
  labelNames : List String
  series : List (List String × Int)
  deriving DecidableEq

/-- The instrument tables `e.gauges` / `e.counters`, keyed by metric name. -/
abbrev Instruments := List (String × MetricVec)

/-- The exporter state built by `NewExporter`: target URI, the `up` gauge
(starting at 0, as a fresh Prometheus gauge does), and the two instrument
tables.  The HTTP client and mutex are not part of the data model. -/
structure Exporter where
  uri : String
  up : Int
  gauges : Instruments
  counters : Instruments
  deriving DecidableEq

/-- A fresh, empty vector instrument with the given label names. -/
def newVec (labels : List String) : MetricVec := ⟨labels, []⟩

/-- Embedding of `NewExporter`: builds the counter table from
`counterVecMetrics` then `counterMetrics`, and the gauge table from
`gaugeVecMetrics` then `gaugeMetrics`; vector specs get label names
`"cluster" :: info.labels`, scalar specs get `["cluster"]`. -/
def newExporter (uri : String) : Exporter :=
  { uri := uri
    up := 0
    counters :=
      counterVecMetrics.map (fun p => (p.1, newVec ("cluster" :: p.2.labels)))
        ++ counterMetrics.map (fun p => (p.1, newVec ["cluster"]))
    gauges :=
      gaugeVecMetrics.map (fun p => (p.1, newVec ("cluster" :: p.2.labels)))
        ++ gaugeMetrics.map (fun p => (p.1, newVec ["cluster"])) }

/-- Embedding of `WithLabelValues(...).Set(v)` at the series level: replace
the value of the child with these label values, or append a new child. -/
def insertSeries : List (List String × Int) → List String → Int → List (List String × Int)
  | [], lvs, v => [(lvs, v)]
  | q :: rest, lvs, v =>
      if q.1 = lvs then (lvs, v) :: rest else q :: insertSeries rest lvs v

/-- Embedding of `m[name].WithLabelValues(lvs...).Set(v)` on an instrument
table: update the instrument registered under `name`.  (`Collect` only ever
looks up names that `NewExporter` registered; on an absent name the Go code
would dereference nil, here the table is returned unchanged.) -/
def updSet : Instruments → String → List String → Int → Instruments
  | [], _, _, _ => []
  | p :: rest, name, lvs, v =>
      if p.1 = name then (p.1, ⟨p.2.labelNames, insertSeries p.2.series lvs v⟩) :: rest
      else p :: updSet rest name lvs v

/-- Embedding of `vec.Reset()` over a whole instrument table: every
instrument keeps its label names and drops all children. -/
def resetAll (m : Instruments) : Instruments :=
  m.map (fun p => (p.1, ⟨p.2.labelNames, []⟩))

/-- One `WithLabelValues(...).Set(...)` call site in `Collect`: which table
it targets, the metric name, the label values, and the value set. -/
structure Update where
  kind : Kind
  name : String
  lvs : List String
  value : Int
  deriving DecidableEq

/-- The GC loop of `Collect` (lines 222-225): two counter updates per
collector, labelled `[clusterName, collector]`. -/
def gcUpdates (cn : String) : List (String × GCStats) → List Update
  | [] => []
  | p :: rest =>
      ⟨.counter, "jvm_gc_collections", [cn, p.1], p.2.collectionCount⟩ ::
      ⟨.counter, "jvm_gc_collections_time_ms", [cn, p.1], p.2.collectionTime⟩ ::
      gcUpdates cn rest

/-- The breaker loop of `Collect` (lines 228-231): two gauge updates per
breaker, labelled `[clusterName, breaker]`. -/
def breakerUpdates (cn : String) : List (String × BreakerStats) → List Update
  | [] => []
  | p :: rest =>
      ⟨.gauge, "breakers_estimated_size_bytes", [cn, p.1], p.2.estimatedSize⟩ ::
      ⟨.gauge, "breakers_limit_size_bytes", [cn, p.1], p.2.limitSize⟩ ::
      breakerUpdates cn rest

/-- The straight-line tail of `Collect`'s per-node loop (lines 233-268):
the scalar `Set` calls, labelled `[clusterName]`, in source order. -/
def scalarUpdates (cn : String) (st : NodeStats) : List Update :=
  [⟨.gauge, "jvm_mem_heap_committed_bytes", [cn], st.jvm.mem.heapCommitted⟩,
        ⟨.gauge, "jvm_mem_heap_used_bytes", [cn], st.jvm.mem.heapUsed⟩,
        ⟨.gauge, "jvm_mem_heap_max_bytes", [cn], st.jvm.mem.heapMax⟩,
        ⟨.gauge, "jvm_mem_non_heap_committed_bytes", [cn], st.jvm.mem.nonHeapCommitted⟩,
        ⟨.gauge, "jvm_mem_non_heap_used_bytes", [cn], st.jvm.mem.nonHeapUsed⟩,
        ⟨.gauge, "indices_fielddata_memory_size_bytes", [cn], st.indices.fieldData.memorySize⟩,
        ⟨.gauge, "indices_filter_cache_memory_size_bytes", [cn], st.indices.filterCache.memorySize⟩,
        ⟨.counter, "indices_filter_cache_evictions", [cn], st.indices.filterCache.evictions⟩,
        ⟨.counter, "indices_fielddata_evictions", [cn], st.indices.fieldData.evictions⟩,
        ⟨.gauge, "indices_docs", [cn], st.indices.docs.count⟩,
        ⟨.gauge, "indices_docs_deleted", [cn], st.indices.docs.deleted⟩,
        ⟨.gauge, "indices_segments_memory_bytes", [cn], st.indices.segments.memory⟩,
        ⟨.gauge, "indices_store_size_bytes", [cn], st.indices.store.size⟩,
        ⟨.counter, "indices_store_throttle_time_ms_total", [cn], st.indices.store.throttleTime⟩,
        ⟨.counter, "indices_flush_total", [cn], st.indices.flush.total⟩,
        ⟨.counter, "indices_flush_time_ms_total", [cn], st.indices.flush.time⟩,
        ⟨.counter, "indices_indexing_index_time_ms_total", [cn], st.indices.indexing.indexTime⟩,
        ⟨.counter, "indices_indexing_index_total", [cn], st.indices.indexing.indexTotal⟩,
        ⟨.counter, "indices_merges_total_time_ms_total", [cn], st.indices.merges.totalTime⟩,
        ⟨.counter, "indices_merges_total_size_bytes_total", [cn], st.indices.merges.totalSize⟩,
        ⟨.counter, "indices_merges_total", [cn], st.indices.merges.total⟩,
        ⟨.counter, "transport_rx_packets_total", [cn], st.transport.rxCount⟩,
        ⟨.counter, "transport_rx_size_bytes_total", [cn], st.transport.rxSize⟩,
        ⟨.counter, "transport_tx_packets_total", [cn], st.transport.txCount⟩,
        ⟨.counter, "transport_tx_size_bytes_total", [cn], st.transport.txSize⟩]

/-- The full body of `Collect`'s per-node loop (lines 220-269), as the
sequence of `Set` calls it performs, in source order: the GC loop, the
breaker loop, then the scalar calls. -/
def nodeUpdates (cn : String) (st : NodeStats) : List Update :=
  gcUpdates cn st.jvm.gc.collectors
    ++ breakerUpdates cn st.breakers
    ++ scalarUpdates cn st

/-- Apply one `Set` call to the exporter state. -/
def applyUpdate (e : Exporter) (u : Update) : Exporter :=
  match u.kind with
  | .counter => { e with counters := updSet e.counters u.name u.lvs u.value }
  | .gauge => { e with gauges := updSet e.gauges u.name u.lvs u.value }

/-- Apply a sequence of `Set` calls in order. -/
def applyUpdates (e : Exporter) (us : List Update) : Exporter :=
  us.foldl applyUpdate e

/-- The node loop of `Collect`: process every node entry in order. -/
def remapAll (cn : String) (e : Exporter) (nodes : List (String × NodeStats)) : Exporter :=
  nodes.foldl (fun acc p => applyUpdates acc (nodeUpdates cn p.2)) e

/-- The four outcomes of the fetch/read/decode prefix of `Collect`. -/
inductive FetchResult where
  | fetchError
  | readError
  | decodeError
  | ok (resp : NodeStatsResponse)

/-- One value sent on the output channel: the `up` gauge itself, or one
child series of a vector instrument. -/
inductive Emission where
  | up (v : Int)
  | series (kind : Kind) (name : String) (labelNames : List String)
      (labelValues : List String) (value : Int)
  deriving DecidableEq

/-- The log lines `Collect` can produce. -/
inductive LogEvent where
  | errorQuerying
  | errorReadingBody
  | errorUnmarshal
  | nodeCountWarning (n : Nat)
  deriving DecidableEq

/-- Embedding of `vec.Collect(ch)` over a whole instrument table: each
instrument contributes one emission per child series, in order. -/
def emitVecs (k : Kind) : Instruments → List Emission
  | [] => []
  | p :: rest =>
      p.2.series.map (fun q => Emission.series k p.1 p.2.labelNames q.1 q.2)
        ++ emitVecs k rest

/-- The observable outcome of one `Collect` invocation: the exporter state
it leaves behind, the emissions sent on the channel, and the log lines. -/
structure CollectResult where
  state : Exporter
  emissions : List Emission
  logs : List LogEvent
  deriving DecidableEq

/-- Embedding of `Exporter.Collect` (lines 178-281).  Reset always runs
first.  On fetch error or body-read error: `up` is set to 0, the error is
logged, and the method returns before the reporting step, emitting nothing.
After a successful read `up` is set to 1; on unmarshal error the method
again returns before reporting.  On a decoded payload: a warning is logged
when the node count is not 1, every node entry is remapped in order, and
the reporting step sends `up` first, then every counter series, then every
gauge series. -/
def collect (e : Exporter) (r : FetchResult) : CollectResult :=
  let g := resetAll e.gauges
  let c := resetAll e.counters
  match r with
  | .fetchError => ⟨⟨e.uri, 0, g, c⟩, [], [.errorQuerying]⟩
  | .readError => ⟨⟨e.uri, 0, g, c⟩, [], [.errorReadingBody]⟩
  | .decodeError => ⟨⟨e.uri, 1, g, c⟩, [], [.errorUnmarshal]⟩
  | .ok resp =>
      let e2 := remapAll resp.clusterName ⟨e.uri, 1, g, c⟩ resp.nodes
      ⟨e2,
       Emission.up e2.up :: (emitVecs .counter e2.counters ++ emitVecs .gauge e2.gauges),
       if resp.nodes.length = 1 then [] else [.nodeCountWarning resp.nodes.length]⟩

/-- Look up the current series list of the instrument registered under a
metric name. -/
def getSeries : Instruments → String → Option (List (List String × Int))
  | [], _ => none
  | p :: rest, name => if p.1 = name then some p.2.series else getSeries rest name

/-- Check that every instrument in a table is in its cleared state. -/
def allCleared (m : Instruments) : Bool :=
  m.all (fun p => p.2.series.isEmpty)

/-- The schema shape of an instrument table: each metric name with its
label-name order. -/
def shapeOf (m : Instruments) : List (String × List String) :=
  m.map (fun p => (p.1, p.2.labelNames))

/-- The gauge-table shape `NewExporter` builds (vector gauges first, then
scalar gauges, each with `cluster` as first label). -/
def gShapes0 : List (String × List String) :=
  gaugeVecMetrics.map (fun p => (p.1, "cluster" :: p.2.labels))
    ++ gaugeMetrics.map (fun p => (p.1, ["cluster"]))

/-- The counter-table shape `NewExporter` builds. -/
def cShapes0 : List (String × List String) :=
  counterVecMetrics.map (fun p => (p.1, "cluster" :: p.2.labels))
    ++ counterMetrics.map (fun p => (p.1, ["cluster"]))

/-- The `Set` calls among `us` that target instrument `m` in the table of
kind `k`, as (label values, value) pairs, in order. -/
def selectK (k : Kind) (m : String) : List Update → List (List String × Int)
  | [] => []
  | u :: rest =>
      if u.kind = k ∧ u.name = m then (u.lvs, u.value) :: selectK k m rest
      else selectK k m rest

/-- Apply a sequence of series insertions to one series list, in order. -/
def applyInserts (s : List (List String × Int)) (qs : List (List String × Int)) :
    List (List String × Int) :=
  qs.foldl (fun acc q => insertSeries acc q.1 q.2) s

/-- All insertions one cycle performs on instrument `m` of kind `k`, across
every node entry in order. -/
def cycleInserts (k : Kind) (m cn : String) : List (String × NodeStats) → List (List String × Int)
  | [] => []
  | p :: rest => selectK k m (nodeUpdates cn p.2) ++ cycleInserts k m cn rest

/-- Per-emission check for a successful cycle with cluster name `cn`: the
`up` gauge reads 1, and every series carries `cluster` as its first label
name, the cluster name as its first label value, and as many label values
as label names. -/
def emOK (cn : String) : Emission → Bool
  | .up v => v == 1
  | .series _ _ lns lvs _ =>
      lns.head? == some "cluster" && lvs.head? == some cn && lvs.length == lns.length

/-- Check that an emission is a child series of an instrument of kind `k`. -/
def isKindSeries (k : Kind) : Emission → Bool
  | .series k2 _ _ _ _ => k2 == k
  | .up _ => false

/-- Select the instrument table of the given kind, mirroring which of
`e.counters` / `e.gauges` a `Set` call site indexes. -/
def kindTable (e : Exporter) (k : Kind) : Instruments :=
  match k with
  | .counter => e.counters
  | .gauge => e.gauges

/-- Invariant on one instrument table during a cycle with cluster name `cn`:
every child series starts with the cluster name and has exactly one label
value per label name. -/
def SeriesInv (cn : String) (m : Instruments) : Prop :=
  ∀ p ∈ m, ∀ q ∈ p.2.series, q.1.head? = some cn ∧ q.1.length = p.2.labelNames.length

/-- The per-`Set`-call obligation making `SeriesInv` inductive: label values
start with the cluster name, and their count matches the schema shape of
the targeted metric name. -/
def UpdCond (cn : String) (u : Update) : Prop :=
  u.lvs.head? = some cn ∧
    ∀ L, (u.kind = .gauge → (u.name, L) ∈ gShapes0 → u.lvs.length = L.length) ∧
      (u.kind = .counter → (u.name, L) ∈ cShapes0 → u.lvs.length = L.length)

/-- Full mid-cycle state invariant: both tables keep the `NewExporter`
shapes and satisfy the series invariant. -/
def StateInv (cn : String) (e : Exporter) : Prop :=
  shapeOf e.gauges = gShapes0 ∧ shapeOf e.counters = cShapes0 ∧
    SeriesInv cn e.gauges ∧ SeriesInv cn e.counters

/-- A node-stats record with every statistic zero and no collectors or
breakers. -/
def zeroStats : NodeStats :=
  { jvm := { mem := ⟨0, 0, 0, 0, 0⟩, gc := ⟨[]⟩ }
    breakers := []
    indices :=
      { fieldData := ⟨0, 0⟩, filterCache := ⟨0, 0⟩, docs := ⟨0, 0⟩, segments := ⟨0⟩
        store := ⟨0, 0⟩, flush := ⟨0, 0⟩, indexing := ⟨0, 0⟩, merges := ⟨0, 0, 0, 0⟩ }
    transport := ⟨0, 0, 0, 0⟩ }

/-- The end-to-end test payload: cluster `es-test`, one node with
`jvm.mem.heapUsed = 1048576` and one `fielddata` breaker. -/
def endToEndResp : NodeStatsResponse :=
  { clusterName := "es-test"
    nodes :=
      [("node0",
        { zeroStats with
            jvm := { mem := ⟨0, 1048576, 0, 0, 0⟩, gc := ⟨[]⟩ }
            breakers := [("fielddata", ⟨100, 1000⟩)] })] }

/-- A two-node payload whose nodes differ in `heapUsed` and `txSize`; used
to exercise last-node-wins. -/
def twoNodeResp : NodeStatsResponse :=
  { clusterName := "es-two"
    nodes :=
      [("nodeA",
        { zeroStats with
            jvm := { mem := ⟨0, 11, 0, 0, 0⟩, gc := ⟨[]⟩ }
            transport := ⟨0, 0, 0, 7⟩ }),
       ("nodeB",
        { zeroStats with
            jvm := { mem := ⟨0, 22, 0, 0, 0⟩, gc := ⟨[]⟩ }
            transport := ⟨0, 0, 0, 9⟩ })] }

/-- A payload whose single node reports a `breakerA` breaker. -/
def breakerAResp : NodeStatsResponse :=
  { clusterName := "es-b"
    nodes := [("n1", { zeroStats with breakers := [("breakerA", ⟨3, 4⟩)] })] }

/-- A payload whose single node reports only a `parent` breaker and no
`breakerA`. -/
def noBreakerAResp : NodeStatsResponse :=
  { clusterName := "es-b"
    nodes := [("n1", { zeroStats with breakers := [("parent", ⟨5, 6⟩)] })] }

/-- A payload that decodes successfully but contains no node entries. -/
def emptyNodesResp : NodeStatsResponse :=
  { clusterName := "es-empty", nodes := [] }

lemma mem_insertSeries {q : List String × Int} {s : List (List String × Int)}
    {lvs : List String} {v : Int} (h : q ∈ insertSeries s lvs v) :
    q ∈ s ∨ q.1 = lvs := by
  induction s with
  | nil =>
      simp only [insertSeries, List.mem_singleton] at h
      subst h
      exact Or.inr rfl
  | cons p rest ih =>
      simp only [insertSeries] at h
      by_cases hp : p.1 = lvs
      · rw [if_pos hp] at h
        rcases List.mem_cons.mp h with h1 | h1
        · subst h1
          exact Or.inr rfl
        · exact Or.inl (List.mem_cons_of_mem _ h1)
      · rw [if_neg hp] at h
        rcases List.mem_cons.mp h with h1 | h1
        · subst h1
          exact Or.inl (List.mem_cons_self _ _)
        · rcases ih h1 with h2 | h2
          · exact Or.inl (List.mem_cons_of_mem _ h2)
          · exact Or.inr h2

lemma getSeries_updSet_self (m : Instruments) (name : String) (lvs : List String) (v : Int) :
    getSeries (updSet m name lvs v) name
      = (getSeries m name).map (fun s => insertSeries s lvs v) := by
  induction m with
  | nil => rfl
  | cons p rest ih =>
      by_cases hp : p.1 = name
      · simp [updSet, getSeries, hp]
      · simp [updSet, getSeries, hp, ih]

lemma getSeries_updSet_ne (m : Instruments) {n2 name : String} (lvs : List String) (v : Int)
    (h : n2 ≠ name) :
    getSeries (updSet m name lvs v) n2 = getSeries m n2 := by
  induction m with
  | nil => rfl
  | cons p rest ih =>
      by_cases hp : p.1 = name
      · have hpn : ¬ p.1 = n2 := by
          rw [hp]
          exact fun hh => h hh.symm
        simp [updSet, getSeries, hp, hpn, Ne.symm h]
      · by_cases hq : p.1 = n2
        · simp [updSet, getSeries, hp, hq, h]
        · simp [updSet, getSeries, hp, hq, ih]

lemma getSeries_resetAll (m : Instruments) (name : String) :
    getSeries (resetAll m) name = (getSeries m name).map (fun _ => ([] : List (List String × Int))) := by
  induction m with
  | nil => rfl
  | cons p rest ih =>
      by_cases hp : p.1 = name
      · simp [resetAll, getSeries, hp]
      · simp only [resetAll, List.map_cons, getSeries, hp, if_neg hp] at ih ⊢
        exact ih

lemma shapeOf_updSet (m : Instruments) (name : String) (lvs : List String) (v : Int) :
    shapeOf (updSet m name lvs v) = shapeOf m := by
  induction m with
  | nil => rfl
  | cons p rest ih =>
      by_cases hp : p.1 = name
      · simp [updSet, shapeOf, hp]
      · simp only [updSet, if_neg hp, shapeOf, List.map_cons] at ih ⊢
        rw [ih]

lemma shapeOf_resetAll (m : Instruments) : shapeOf (resetAll m) = shapeOf m := by
  simp [shapeOf, resetAll, List.map_map, Function.comp]

lemma resetAll_eq_shape (m : Instruments) :
    resetAll m = (shapeOf m).map (fun p => (p.1, MetricVec.mk p.2 [])) := by
  simp [resetAll, shapeOf, List.map_map, Function.comp]

lemma resetAll_congr {m1 m2 : Instruments} (h : shapeOf m1 = shapeOf m2) :
    resetAll m1 = resetAll m2 := by
  rw [resetAll_eq_shape, resetAll_eq_shape, h]

lemma allCleared_resetAll (m : Instruments) : allCleared (resetAll m) = true := by
  simp [allCleared, resetAll, List.all_eq_true]

lemma emitVecs_resetAll (k : Kind) (m : Instruments) : emitVecs k (resetAll m) = [] := by
  induction m with
  | nil => rfl
  | cons p rest ih => simpa [resetAll, emitVecs] using ih

lemma applyUpdate_uri (e : Exporter) (u : Update) : (applyUpdate e u).uri = e.uri := by
  rcases u with ⟨k, n, lvs, v⟩
  cases k <;> rfl

lemma applyUpdate_up (e : Exporter) (u : Update) : (applyUpdate e u).up = e.up := by
  rcases u with ⟨k, n, lvs, v⟩
  cases k <;> rfl

lemma shapeOf_applyUpdate_gauges (e : Exporter) (u : Update) :
    shapeOf (applyUpdate e u).gauges = shapeOf e.gauges := by
  rcases u with ⟨k, n, lvs, v⟩
  cases k
  · rfl
  · simp [applyUpdate, shapeOf_updSet]

lemma shapeOf_applyUpdate_counters (e : Exporter) (u : Update) :
    shapeOf (applyUpdate e u).counters = shapeOf e.counters := by
  rcases u with ⟨k, n, lvs, v⟩
  cases k
  · simp [applyUpdate, shapeOf_updSet]
  · rfl

lemma applyUpdates_uri (us : List Update) : ∀ e : Exporter, (applyUpdates e us).uri = e.uri := by
  induction us with
  | nil => intro e; rfl
  | cons u rest ih =>
      intro e
      rw [applyUpdates, List.foldl_cons, ← applyUpdates, ih, applyUpdate_uri]

lemma applyUpdates_up (us : List Update) : ∀ e : Exporter, (applyUpdates e us).up = e.up := by
  induction us with
  | nil => intro e; rfl
  | cons u rest ih =>
      intro e
      rw [applyUpdates, List.foldl_cons, ← applyUpdates, ih, applyUpdate_up]

lemma shapeOf_applyUpdates_gauges (us : List Update) :
    ∀ e : Exporter, shapeOf (applyUpdates e us).gauges = shapeOf e.gauges := by
  induction us with
  | nil => intro e; rfl
  | cons u rest ih =>
      intro e
      rw [applyUpdates, List.foldl_cons, ← applyUpdates, ih, shapeOf_applyUpdate_gauges]

lemma shapeOf_applyUpdates_counters (us : List Update) :
    ∀ e : Exporter, shapeOf (applyUpdates e us).counters = shapeOf e.counters := by
  induction us with
  | nil => intro e; rfl
  | cons u rest ih =>
      intro e
      rw [applyUpdates, List.foldl_cons, ← applyUpdates, ih, shapeOf_applyUpdate_counters]

lemma remapAll_uri (cn : String) (nodes : List (String × NodeStats)) :
    ∀ e : Exporter, (remapAll cn e nodes).uri = e.uri := by
  induction nodes with
  | nil => intro e; rfl
  | cons p rest ih =>
      intro e
      rw [remapAll, List.foldl_cons, ← remapAll, ih, applyUpdates_uri]

lemma remapAll_up (cn : String) (nodes : List (String × NodeStats)) :
    ∀ e : Exporter, (remapAll cn e nodes).up = e.up := by
  induction nodes with
  | nil => intro e; rfl
  | cons p rest ih =>
      intro e
      rw [remapAll, List.foldl_cons, ← remapAll, ih, applyUpdates_up]

lemma shapeOf_remapAll_gauges (cn : String) (nodes : List (String × NodeStats)) :
    ∀ e : Exporter, shapeOf (remapAll cn e nodes).gauges = shapeOf e.gauges := by
  induction nodes with
  | nil => intro e; rfl
  | cons p rest ih =>
      intro e
      rw [remapAll, List.foldl_cons, ← remapAll, ih, shapeOf_applyUpdates_gauges]

lemma shapeOf_remapAll_counters (cn : String) (nodes : List (String × NodeStats)) :
    ∀ e : Exporter, shapeOf (remapAll cn e nodes).counters = shapeOf e.counters := by
  induction nodes with
  | nil => intro e; rfl
  | cons p rest ih =>
      intro e
      rw [remapAll, List.foldl_cons, ← remapAll, ih, shapeOf_applyUpdates_counters]

lemma collect_state_uri (e : Exporter) (r : FetchResult) :
    (collect e r).state.uri = e.uri := by
  cases r <;> simp [collect, remapAll_uri]

lemma collect_state_shape_gauges (e : Exporter) (r : FetchResult) :
    shapeOf (collect e r).state.gauges = shapeOf e.gauges := by
  cases r <;> simp [collect, shapeOf_remapAll_gauges, shapeOf_resetAll]

lemma collect_state_shape_counters (e : Exporter) (r : FetchResult) :
    shapeOf (collect e r).state.counters = shapeOf e.counters := by
  cases r <;> simp [collect, shapeOf_remapAll_counters, shapeOf_resetAll]

lemma collect_congr {e1 e2 : Exporter} (r : FetchResult) (huri : e1.uri = e2.uri)
    (hg : resetAll e1.gauges = resetAll e2.gauges)
    (hc : resetAll e1.counters = resetAll e2.counters) :
    collect e1 r = collect e2 r := by
  cases r <;> simp [collect, huri, hg, hc]

lemma selectK_append (k : Kind) (m : String) (a b : List Update) :
    selectK k m (a ++ b) = selectK k m a ++ selectK k m b := by
  induction a with
  | nil => rfl
  | cons u rest ih =>
      by_cases h : u.kind = k ∧ u.name = m
      · simp [selectK, h, ih]
      · simp [selectK, h, ih]

lemma applyInserts_cons (s : List (List String × Int)) (q : List String × Int)
    (qs : List (List String × Int)) :
    applyInserts s (q :: qs) = applyInserts (insertSeries s q.1 q.2) qs := rfl

lemma applyInserts_append (s : List (List String × Int)) (a b : List (List String × Int)) :
    applyInserts s (a ++ b) = applyInserts (applyInserts s a) b := by
  simp [applyInserts, List.foldl_append]

lemma getSeries_applyUpdates_gauge (us : List Update) (m : String) :
    ∀ e : Exporter, getSeries (applyUpdates e us).gauges m
      = (getSeries e.gauges m).map (fun s => applyInserts s (selectK .gauge m us)) := by
  induction us with
  | nil =>
      intro e
      show getSeries e.gauges m = _
      cases getSeries e.gauges m <;> rfl
  | cons u rest ih =>
      intro e
      rw [applyUpdates, List.foldl_cons, ← applyUpdates, ih]
      rcases u with ⟨k, n, lvs, v⟩
      cases k
      · simp only [applyUpdate, selectK]
        cases getSeries e.gauges m <;> simp
      · by_cases hn : n = m
        · subst hn
          simp only [applyUpdate, selectK, getSeries_updSet_self, Option.map_map]
          cases getSeries e.gauges n <;> simp [applyInserts_cons]
        · have hne : m ≠ n := fun hh => hn hh.symm
          simp only [applyUpdate, selectK, getSeries_updSet_ne _ _ _ hne]
          simp [hn]

lemma getSeries_applyUpdates_counter (us : List Update) (m : String) :
    ∀ e : Exporter, getSeries (applyUpdates e us).counters m
      = (getSeries e.counters m).map (fun s => applyInserts s (selectK .counter m us)) := by
  induction us with
  | nil =>
      intro e
      show getSeries e.counters m = _
      cases getSeries e.counters m <;> rfl
  | cons u rest ih =>
      intro e
      rw [applyUpdates, List.foldl_cons, ← applyUpdates, ih]
      rcases u with ⟨k, n, lvs, v⟩
      cases k
      · by_cases hn : n = m
        · subst hn
          simp only [applyUpdate, selectK, getSeries_updSet_self, Option.map_map]
          cases getSeries e.counters n <;> simp [applyInserts_cons]
        · have hne : m ≠ n := fun hh => hn hh.symm
          simp only [applyUpdate, selectK, getSeries_updSet_ne _ _ _ hne]
          simp [hn]
      · simp only [applyUpdate, selectK]
        cases getSeries e.counters m <;> simp

lemma getSeries_remapAll_gauge (m cn : String) (nodes : List (String × NodeStats)) :
    ∀ e : Exporter, getSeries (remapAll cn e nodes).gauges m
      = (getSeries e.gauges m).map (fun s => applyInserts s (cycleInserts .gauge m cn nodes)) := by
  induction nodes with
  | nil =>
      intro e
      show getSeries e.gauges m = _
      cases getSeries e.gauges m <;> rfl
  | cons p rest ih =>
      intro e
      rw [remapAll, List.foldl_cons, ← remapAll, ih, getSeries_applyUpdates_gauge,
        Option.map_map]
      cases getSeries e.gauges m <;> simp [cycleInserts, applyInserts_append]

lemma getSeries_remapAll_counter (m cn : String) (nodes : List (String × NodeStats)) :
    ∀ e : Exporter, getSeries (remapAll cn e nodes).counters m
      = (getSeries e.counters m).map (fun s => applyInserts s (cycleInserts .counter m cn nodes)) := by
  induction nodes with
  | nil =>
      intro e
      show getSeries e.counters m = _
      cases getSeries e.counters m <;> rfl
  | cons p rest ih =>
      intro e
      rw [remapAll, List.foldl_cons, ← remapAll, ih, getSeries_applyUpdates_counter,
        Option.map_map]
      cases getSeries e.counters m <;> simp [cycleInserts, applyInserts_append]

lemma getSeries_collect_ok_gauge (e : Exporter) (resp : NodeStatsResponse) (m : String) :
    getSeries (collect e (.ok resp)).state.gauges m
      = (getSeries e.gauges m).map
          (fun _ => applyInserts [] (cycleInserts .gauge m resp.clusterName resp.nodes)) := by
  show getSeries (remapAll resp.clusterName _ resp.nodes).gauges m = _
  rw [getSeries_remapAll_gauge]
  show (getSeries (resetAll e.gauges) m).map _ = _
  rw [getSeries_resetAll, Option.map_map]
  cases getSeries e.gauges m <;> rfl

lemma getSeries_collect_ok_counter (e : Exporter) (resp : NodeStatsResponse) (m : String) :
    getSeries (collect e (.ok resp)).state.counters m
      = (getSeries e.counters m).map
          (fun _ => applyInserts [] (cycleInserts .counter m resp.clusterName resp.nodes)) := by
  show getSeries (remapAll resp.clusterName _ resp.nodes).counters m = _
  rw [getSeries_remapAll_counter]
  show (getSeries (resetAll e.counters) m).map _ = _
  rw [getSeries_resetAll, Option.map_map]
  cases getSeries e.counters m <;> rfl

lemma selectK_gauge_gcUpdates (m cn : String) (l : List (String × GCStats)) :
    selectK .gauge m (gcUpdates cn l) = [] := by
  induction l with
  | nil => rfl
  | cons p rest ih => simp [gcUpdates, selectK, ih]

lemma selectK_counter_breakerUpdates (m cn : String) (l : List (String × BreakerStats)) :
    selectK .counter m (breakerUpdates cn l) = [] := by
  induction l with
  | nil => rfl
  | cons p rest ih => simp [breakerUpdates, selectK, ih]

lemma selectK_counter_gcUpdates_ne (m cn : String) (h1 : "jvm_gc_collections" ≠ m)
    (h2 : "jvm_gc_collections_time_ms" ≠ m) (l : List (String × GCStats)) :
    selectK .counter m (gcUpdates cn l) = [] := by
  induction l with
  | nil => rfl
  | cons p rest ih => simp [gcUpdates, selectK, h1, h2, ih]

lemma selectK_gauge_breakerUpdates_ne (m cn : String) (h1 : "breakers_estimated_size_bytes" ≠ m)
    (h2 : "breakers_limit_size_bytes" ≠ m) (l : List (String × BreakerStats)) :
    selectK .gauge m (breakerUpdates cn l) = [] := by
  induction l with
  | nil => rfl
  | cons p rest ih => simp [breakerUpdates, selectK, h1, h2, ih]

lemma selectK_gauge_breakerUpdates_est (cn : String) (l : List (String × BreakerStats)) :
    selectK .gauge "breakers_estimated_size_bytes" (breakerUpdates cn l)
      = l.map (fun p => ([cn, p.1], p.2.estimatedSize)) := by
  induction l with
  | nil => rfl
  | cons p rest ih => simp [breakerUpdates, selectK, ih]

lemma selectK_gauge_breakerUpdates_lim (cn : String) (l : List (String × BreakerStats)) :
    selectK .gauge "breakers_limit_size_bytes" (breakerUpdates cn l)
      = l.map (fun p => ([cn, p.1], p.2.limitSize)) := by
  induction l with
  | nil => rfl
  | cons p rest ih => simp [breakerUpdates, selectK, ih]

lemma selectK_node_heapUsed (cn : String) (st : NodeStats) :
    selectK .gauge "jvm_mem_heap_used_bytes" (nodeUpdates cn st)
      = [([cn], st.jvm.mem.heapUsed)] := by
  rw [nodeUpdates, selectK_append, selectK_append, selectK_gauge_gcUpdates,
    selectK_gauge_breakerUpdates_ne _ _ (by decide) (by decide)]
  simp [scalarUpdates, selectK]

lemma selectK_node_txSize (cn : String) (st : NodeStats) :
    selectK .counter "transport_tx_size_bytes_total" (nodeUpdates cn st)
      = [([cn], st.transport.txSize)] := by
  rw [nodeUpdates, selectK_append, selectK_append,
    selectK_counter_gcUpdates_ne _ _ (by decide) (by decide),
    selectK_counter_breakerUpdates]
  simp [scalarUpdates, selectK]

lemma selectK_node_brEst (cn : String) (st : NodeStats) :
    selectK .gauge "breakers_estimated_size_bytes" (nodeUpdates cn st)
      = st.breakers.map (fun p => ([cn, p.1], p.2.estimatedSize)) := by
  rw [nodeUpdates, selectK_append, selectK_append, selectK_gauge_gcUpdates,
    selectK_gauge_breakerUpdates_est]
  simp [scalarUpdates, selectK]

lemma selectK_node_brLim (cn : String) (st : NodeStats) :
    selectK .gauge "breakers_limit_size_bytes" (nodeUpdates cn st)
      = st.breakers.map (fun p => ([cn, p.1], p.2.limitSize)) := by
  rw [nodeUpdates, selectK_append, selectK_append, selectK_gauge_gcUpdates,
    selectK_gauge_breakerUpdates_lim]
  simp [scalarUpdates, selectK]

lemma cycleInserts_of_selectK (k : Kind) (m cn : String) (f : NodeStats → Int)
    (h : ∀ st, selectK k m (nodeUpdates cn st) = [([cn], f st)]) :
    ∀ nodes : List (String × NodeStats),
      cycleInserts k m cn nodes = nodes.map (fun p => ([cn], f p.2)) := by
  intro nodes
  induction nodes with
  | nil => rfl
  | cons p rest ih => simp [cycleInserts, h, ih]

lemma applyInserts_const (lvs : List String) (vs : List Int) :
    ∀ w : Int, applyInserts [(lvs, w)] (vs.map (fun v => (lvs, v))) = [(lvs, vs.getLastD w)] := by
  induction vs with
  | nil => intro w; rfl
  | cons v rest ih =>
      intro w
      rw [List.map_cons, applyInserts_cons]
      show applyInserts (insertSeries [(lvs, w)] lvs v) _ = _
      have hins : insertSeries [(lvs, w)] lvs v = [(lvs, v)] := by
        simp [insertSeries]
      rw [hins, ih v, List.getLastD_cons]

lemma applyInserts_nil_const (lvs : List String) (v0 : Int) (vs : List Int) :
    applyInserts [] ((lvs, v0) :: vs.map (fun v => (lvs, v))) = [(lvs, vs.getLastD v0)] := by
  rw [applyInserts_cons]
  show applyInserts [(lvs, v0)] _ = _
  exact applyInserts_const lvs vs v0

lemma getLastD_map_getLast {α β : Type} (f : α → β) :
    ∀ (rest : List α) (n0 : α),
      (rest.map f).getLastD (f n0) = f ((n0 :: rest).getLast (List.cons_ne_nil n0 rest)) := by
  intro rest
  induction rest with
  | nil => intro n0; rfl
  | cons r rs ih =>
      intro n0
      rw [List.map_cons, List.getLastD_cons, ih r]
      exact congrArg f (List.getLast_cons (List.cons_ne_nil r rs)).symm

lemma applyInserts_map_getLast (cn : String) (f : NodeStats → Int)
    (nodes : List (String × NodeStats)) (h : nodes ≠ []) :
    applyInserts [] (nodes.map (fun p => (([cn] : List String), f p.2)))
      = [([cn], f (nodes.getLast h).2)] := by
  match nodes with
  | [] => exact absurd rfl h
  | n0 :: rest =>
      rw [List.map_cons]
      have hmm : rest.map (fun p => (([cn] : List String), f p.2))
          = (rest.map (fun p => f p.2)).map (fun v => ([cn], v)) := by
        simp [List.map_map]
      rw [hmm, applyInserts_nil_const]
      have h2 := getLastD_map_getLast (fun p : String × NodeStats => f p.2) rest n0
      rw [h2]

lemma mem_gcUpdates {cn : String} {l : List (String × GCStats)} {u : Update}
    (h : u ∈ gcUpdates cn l) :
    ∃ p ∈ l, u = ⟨.counter, "jvm_gc_collections", [cn, p.1], p.2.collectionCount⟩
      ∨ u = ⟨.counter, "jvm_gc_collections_time_ms", [cn, p.1], p.2.collectionTime⟩ := by
  induction l with
  | nil => exact absurd h (List.not_mem_nil u)
  | cons q rest ih =>
      rcases List.mem_cons.mp h with rfl | h2
      · exact ⟨q, List.mem_cons_self q rest, Or.inl rfl⟩
      · rcases List.mem_cons.mp h2 with rfl | h3
        · exact ⟨q, List.mem_cons_self q rest, Or.inr rfl⟩
        · obtain ⟨p, hp, hu⟩ := ih h3
          exact ⟨p, List.mem_cons_of_mem q hp, hu⟩

lemma mem_breakerUpdates {cn : String} {l : List (String × BreakerStats)} {u : Update}
    (h : u ∈ breakerUpdates cn l) :
    ∃ p ∈ l, u = ⟨.gauge, "breakers_estimated_size_bytes", [cn, p.1], p.2.estimatedSize⟩
      ∨ u = ⟨.gauge, "breakers_limit_size_bytes", [cn, p.1], p.2.limitSize⟩ := by
  induction l with
  | nil => exact absurd h (List.not_mem_nil u)
  | cons q rest ih =>
      rcases List.mem_cons.mp h with rfl | h2
      · exact ⟨q, List.mem_cons_self q rest, Or.inl rfl⟩
      · rcases List.mem_cons.mp h2 with rfl | h3
        · exact ⟨q, List.mem_cons_self q rest, Or.inr rfl⟩
        · obtain ⟨p, hp, hu⟩ := ih h3
          exact ⟨p, List.mem_cons_of_mem q hp, hu⟩

lemma mem_cycleInserts {k : Kind} {m cn : String} {nodes : List (String × NodeStats)}
    {q : List String × Int} (h : q ∈ cycleInserts k m cn nodes) :
    ∃ nd ∈ nodes, q ∈ selectK k m (nodeUpdates cn nd.2) := by
  induction nodes with
  | nil => exact absurd h (List.not_mem_nil q)
  | cons p rest ih =>
      rcases List.mem_append.mp h with h2 | h2
      · exact ⟨p, List.mem_cons_self p rest, h2⟩
      · obtain ⟨nd, hnd, hq⟩ := ih h2
        exact ⟨nd, List.mem_cons_of_mem p hnd, hq⟩

lemma mem_applyInserts {q : List String × Int} :
    ∀ (qs s : List (List String × Int)), q ∈ applyInserts s qs →
      q ∈ s ∨ ∃ p ∈ qs, q.1 = p.1 := by
  intro qs
  induction qs with
  | nil => intro s h; exact Or.inl h
  | cons p rest ih =>
      intro s h
      rw [applyInserts_cons] at h
      rcases ih (insertSeries s p.1 p.2) h with h2 | h2
      · rcases mem_insertSeries h2 with h3 | h3
        · exact Or.inl h3
        · exact Or.inr ⟨p, List.mem_cons_self p rest, h3⟩
      · obtain ⟨r, hr, hq⟩ := h2
        exact Or.inr ⟨r, List.mem_cons_of_mem p hr, hq⟩

lemma seriesInv_resetAll (cn : String) (m : Instruments) : SeriesInv cn (resetAll m) := by
  intro p hp q hq
  rw [resetAll, List.mem_map] at hp
  obtain ⟨r, _, rfl⟩ := hp
  exact absurd hq (List.not_mem_nil q)

lemma seriesInv_updSet (cn name : String) (lvs : List String) (v : Int) :
    ∀ m : Instruments, SeriesInv cn m → lvs.head? = some cn →
      (∀ p ∈ m, p.1 = name → lvs.length = p.2.labelNames.length) →
      SeriesInv cn (updSet m name lvs v) := by
  intro m
  induction m with
  | nil => intro _ _ _ p hp; exact absurd hp (List.not_mem_nil p)
  | cons r rest ih =>
      intro hm hhead hlen p hp
      rw [updSet] at hp
      by_cases hr : r.1 = name
      · rw [if_pos hr] at hp
        rcases List.mem_cons.mp hp with rfl | hp2
        · intro q hq
          rcases mem_insertSeries hq with hq2 | hq2
          · exact hm r (List.mem_cons_self r rest) q hq2
          · refine ⟨by rw [hq2]; exact hhead, by rw [hq2]; exact hlen r (List.mem_cons_self r rest) hr⟩
        · exact hm p (List.mem_cons_of_mem r hp2)
      · rw [if_neg hr] at hp
        rcases List.mem_cons.mp hp with rfl | hp2
        · exact hm p (List.mem_cons_self p rest)
        · exact ih (fun s hs => hm s (List.mem_cons_of_mem r hs)) hhead
            (fun s hs h1 => hlen s (List.mem_cons_of_mem r hs) h1) p hp2

lemma shapeOf_newExporter_gauges (uri : String) :
    shapeOf (newExporter uri).gauges = gShapes0 := rfl

lemma shapeOf_newExporter_counters (uri : String) :
    shapeOf (newExporter uri).counters = cShapes0 := rfl

lemma gShapes0_cluster : ∀ pr ∈ gShapes0, pr.2.head? = some "cluster" := by decide

lemma cShapes0_cluster : ∀ pr ∈ cShapes0, pr.2.head? = some "cluster" := by decide

lemma nodeUpdates_updCond (cn : String) (st : NodeStats) :
    ∀ u ∈ nodeUpdates cn st, UpdCond cn u := by
  intro u hu
  rw [nodeUpdates] at hu
  rcases List.mem_append.mp hu with hu | hu
  · rcases List.mem_append.mp hu with hu | hu
    · obtain ⟨p, _, (rfl | rfl)⟩ := mem_gcUpdates hu <;>
        refine ⟨rfl, fun L => ⟨fun hk hm =>
            absurd hm (by simp [gShapes0, gaugeVecMetrics, gaugeMetrics]), fun hk hm => ?_⟩⟩ <;>
        (simp [cShapes0, counterVecMetrics, counterMetrics] at hm; subst hm; rfl)
    · obtain ⟨p, _, (rfl | rfl)⟩ := mem_breakerUpdates hu <;>
        refine ⟨rfl, fun L => ⟨fun hk hm => ?_, fun hk hm =>
            absurd hm (by simp [cShapes0, counterVecMetrics, counterMetrics])⟩⟩ <;>
        (simp [gShapes0, gaugeVecMetrics, gaugeMetrics] at hm; subst hm; rfl)
  · simp only [scalarUpdates, List.mem_cons, List.not_mem_nil, or_false] at hu
    rcases hu with rfl|rfl|rfl|rfl|rfl|rfl|rfl|rfl|rfl|rfl|rfl|rfl|rfl|rfl|rfl|rfl|rfl|rfl|rfl|rfl|rfl|rfl|rfl|rfl|rfl <;>
      refine ⟨rfl, fun L => ⟨fun hk hm => ?_, fun hk hm => ?_⟩⟩ <;>
      first
        | (simp [gShapes0, cShapes0, gaugeVecMetrics, gaugeMetrics, counterVecMetrics,
             counterMetrics] at hm
           subst hm
           rfl)
        | simp [gShapes0, cShapes0, gaugeVecMetrics, gaugeMetrics, counterVecMetrics,
            counterMetrics] at hm

lemma stateInv_applyUpdate {cn : String} {e : Exporter} {u : Update}
    (h : StateInv cn e) (hu : UpdCond cn u) : StateInv cn (applyUpdate e u) := by
  obtain ⟨hg, hc, hsg, hsc⟩ := h
  obtain ⟨hhead, hrest⟩ := hu
  rcases hk : u.kind with _ | _
  · refine ⟨?_, ?_, ?_, ?_⟩
    · rw [shapeOf_applyUpdate_gauges]; exact hg
    · rw [shapeOf_applyUpdate_counters]; exact hc
    · have : (applyUpdate e u).gauges = e.gauges := by
        rcases u with ⟨k, n, lvs, v⟩
        cases hk
        rfl
      rw [this]; exact hsg
    · have : (applyUpdate e u).counters = updSet e.counters u.name u.lvs u.value := by
        rcases u with ⟨k, n, lvs, v⟩
        cases hk
        rfl
      rw [this]
      refine seriesInv_updSet cn u.name u.lvs u.value e.counters hsc hhead ?_
      intro p hp h1
      have hmem : (p.1, p.2.labelNames) ∈ shapeOf e.counters :=
        List.mem_map_of_mem (fun q => (q.1, q.2.labelNames)) hp
      rw [hc] at hmem
      rw [h1] at hmem
      exact (hrest p.2.labelNames).2 hk hmem
  · refine ⟨?_, ?_, ?_, ?_⟩
    · rw [shapeOf_applyUpdate_gauges]; exact hg
    · rw [shapeOf_applyUpdate_counters]; exact hc
    · have : (applyUpdate e u).gauges = updSet e.gauges u.name u.lvs u.value := by
        rcases u with ⟨k, n, lvs, v⟩
        cases hk
        rfl
      rw [this]
      refine seriesInv_updSet cn u.name u.lvs u.value e.gauges hsg hhead ?_
      intro p hp h1
      have hmem : (p.1, p.2.labelNames) ∈ shapeOf e.gauges :=
        List.mem_map_of_mem (fun q => (q.1, q.2.labelNames)) hp
      rw [hg] at hmem
      rw [h1] at hmem
      exact (hrest p.2.labelNames).1 hk hmem
    · have : (applyUpdate e u).counters = e.counters := by
        rcases u with ⟨k, n, lvs, v⟩
        cases hk
        rfl
      rw [this]; exact hsc

lemma stateInv_applyUpdates {cn : String} (us : List Update)
    (hus : ∀ u ∈ us, UpdCond cn u) :
    ∀ e : Exporter, StateInv cn e → StateInv cn (applyUpdates e us) := by
  induction us with
  | nil => intro e h; exact h
  | cons u rest ih =>
      intro e h
      rw [applyUpdates, List.foldl_cons, ← applyUpdates]
      exact ih (fun v hv => hus v (List.mem_cons_of_mem u hv)) _
        (stateInv_applyUpdate h (hus u (List.mem_cons_self u rest)))

lemma stateInv_remapAll {cn : String} (nodes : List (String × NodeStats)) :
    ∀ e : Exporter, StateInv cn e → StateInv cn (remapAll cn e nodes) := by
  induction nodes with
  | nil => intro e h; exact h
  | cons p rest ih =>
      intro e h
      rw [remapAll, List.foldl_cons, ← remapAll]
      exact ih _ (stateInv_applyUpdates _ (nodeUpdates_updCond cn p.2) e h)

lemma emitVecs_emOK (cn : String) (k : Kind) :
    ∀ m : Instruments, (∀ pr ∈ shapeOf m, pr.2.head? = some "cluster") →
      SeriesInv cn m → (emitVecs k m).all (emOK cn) = true := by
  intro m
  induction m with
  | nil => intro _ _; rfl
  | cons p rest ih =>
      intro hcl hinv
      rw [emitVecs, List.all_append, Bool.and_eq_true]
      constructor
      · rw [List.all_eq_true]
        intro em hem
        rw [List.mem_map] at hem
        obtain ⟨q, hq, rfl⟩ := hem
        obtain ⟨h1, h2⟩ := hinv p (List.mem_cons_self p rest) q hq
        have hhd : p.2.labelNames.head? = some "cluster" := by
          refine hcl (p.1, p.2.labelNames) ?_
          rw [shapeOf, List.map_cons]
          exact List.mem_cons_self _ _
        simp [emOK, h1, h2, hhd]
      · refine ih (fun pr hpr => hcl pr ?_) (fun r hr => hinv r (List.mem_cons_of_mem p hr))
        rw [shapeOf, List.map_cons]
        exact List.mem_cons_of_mem _ hpr

lemma emitVecs_all_kind (k : Kind) (m : Instruments) :
    (emitVecs k m).all (isKindSeries k) = true := by
  induction m with
  | nil => rfl
  | cons p rest ih =>
      rw [emitVecs, List.all_append, Bool.and_eq_true]
      refine ⟨?_, ih⟩
      rw [List.all_eq_true]
      intro em hem
      rw [List.mem_map] at hem
      obtain ⟨q, _, rfl⟩ := hem
      simp [isKindSeries]

/-- C1 (amended): when the HTTP GET fails (connection refused or timeout),
`Collect` sets the `up` gauge to 0, logs the error, performs no remapping,
and returns before the reporting step: the instruments are left in their
cleared state, but nothing — not even the `up` gauge — is emitted to the
output channel. -/
theorem collect_fetchError_spec (e : Exporter) :
    (collect e .fetchError).state.up = 0 ∧
    (collect e .fetchError).emissions = [] ∧
    (collect e .fetchError).logs = [.errorQuerying] ∧
    allCleared (collect e .fetchError).state.gauges = true ∧
    allCleared (collect e .fetchError).state.counters = true :=
  ⟨rfl, rfl, rfl, allCleared_resetAll e.gauges, allCleared_resetAll e.counters⟩

/-- C1 counterexample: at a concrete exporter a fetch error emits nothing at
all — the emission list is empty and in particular does not contain the
`up` gauge, contrary to the claim that `up` and the cleared instruments
are still emitted. -/
theorem collect_fetchError_no_up_emitted :
    (collect (newExporter "http://localhost:9200/_nodes/_local/stats") .fetchError).emissions = []
      ∧ Emission.up 0 ∉
        (collect (newExporter "http://localhost:9200/_nodes/_local/stats") .fetchError).emissions :=
  ⟨rfl, fun h => nomatch h⟩

/-- C2 (amended): when the fetch and body read succeed but JSON decoding
fails, `Collect` leaves `up` at 1, logs the error, skips remapping, and
returns before the reporting step: the instruments stay cleared and
nothing — not even the `up` gauge — is emitted. -/
theorem collect_decodeError_spec (e : Exporter) :
    (collect e .decodeError).state.up = 1 ∧
    (collect e .decodeError).emissions = [] ∧
    (collect e .decodeError).logs = [.errorUnmarshal] ∧
    allCleared (collect e .decodeError).state.gauges = true ∧
    allCleared (collect e .decodeError).state.counters = true :=
  ⟨rfl, rfl, rfl, allCleared_resetAll e.gauges, allCleared_resetAll e.counters⟩

/-- C2 counterexample: at a concrete exporter a decode failure emits
nothing at all — no `up` gauge and no series — contrary to the claim that
the cycle emits `up` plus the cleared instruments. -/
theorem collect_decodeError_no_up_emitted :
    (collect (newExporter "http://localhost:9200/_nodes/_local/stats") .decodeError).emissions = []
      ∧ Emission.up 1 ∉
        (collect (newExporter "http://localhost:9200/_nodes/_local/stats") .decodeError).emissions :=
  ⟨rfl, fun h => nomatch h⟩

/-- C5: invoking `Collect` twice against an unchanging decoded payload
yields exactly the same result both times — the same instrument state,
the same emissions and the same logs — because the reset step fully
clears all prior series before remapping. -/
theorem collect_idempotent (e : Exporter) (resp : NodeStatsResponse) :
    collect (collect e (.ok resp)).state (.ok resp) = collect e (.ok resp) :=
  collect_congr (.ok resp) (collect_state_uri e (.ok resp))
    (resetAll_congr (collect_state_shape_gauges e (.ok resp)))
    (resetAll_congr (collect_state_shape_counters e (.ok resp)))

/-- C8: in every cycle that reaches the publishing step (fetch, read and
decode succeeded), the emission order is the `up` liveness gauge first,
then every counter series, then every gauge series. -/
theorem collect_publish_order (e : Exporter) (resp : NodeStatsResponse) :
    (collect e (.ok resp)).emissions
      = Emission.up 1
          :: (emitVecs .counter (collect e (.ok resp)).state.counters
              ++ emitVecs .gauge (collect e (.ok resp)).state.gauges) ∧
    (emitVecs .counter (collect e (.ok resp)).state.counters).all (isKindSeries .counter) = true ∧
    (emitVecs .gauge (collect e (.ok resp)).state.gauges).all (isKindSeries .gauge) = true := by
  have h1 : (collect e (.ok resp)).state.up = 1 :=
    remapAll_up resp.clusterName resp.nodes _
  refine ⟨?_, emitVecs_all_kind _ _, emitVecs_all_kind _ _⟩
  rw [← h1]
  rfl

/-- C10 (amended): a payload that decodes successfully but has an empty
`nodes` mapping completes the cycle with `up = 1`, performs no remapping,
leaves every instrument cleared, and emits exactly the `up` gauge (the
node-count warning is logged with count 0).  Unlike a decode failure,
which emits nothing, the `up` gauge is still published, so the two
outcomes are distinguishable at the metrics surface. -/
theorem collect_emptyNodes_spec (e : Exporter) (resp : NodeStatsResponse)
    (h : resp.nodes = []) :
    (collect e (.ok resp)).state.up = 1 ∧
    (collect e (.ok resp)).emissions = [Emission.up 1] ∧
    allCleared (collect e (.ok resp)).state.gauges = true ∧
    allCleared (collect e (.ok resp)).state.counters = true ∧
    (collect e (.ok resp)).logs = [.nodeCountWarning 0] := by
  obtain ⟨cn, nodes⟩ := resp
  dsimp only at h
  subst h
  refine ⟨rfl, ?_, allCleared_resetAll _, allCleared_resetAll _, rfl⟩
  show Emission.up _ :: (emitVecs _ (resetAll e.counters) ++ emitVecs _ (resetAll e.gauges)) = _
  rw [emitVecs_resetAll, emitVecs_resetAll]
  rfl

/-- C10 witness: the theorem applied to a concrete exporter and the
concrete empty-nodes payload. -/
theorem collect_emptyNodes_spec_witness :
    emptyNodesResp.nodes = [] ∧
    ((collect (newExporter "u") (.ok emptyNodesResp)).state.up = 1 ∧
     (collect (newExporter "u") (.ok emptyNodesResp)).emissions = [Emission.up 1] ∧
     allCleared (collect (newExporter "u") (.ok emptyNodesResp)).state.gauges = true ∧
     allCleared (collect (newExporter "u") (.ok emptyNodesResp)).state.counters = true ∧
     (collect (newExporter "u") (.ok emptyNodesResp)).logs = [.nodeCountWarning 0]) :=
  ⟨rfl, collect_emptyNodes_spec (newExporter "u") emptyNodesResp rfl⟩

/-- C10 counterexample: at the metrics surface an empty-nodes success and a
decode failure are distinguishable: the former emits the `up` gauge with
value 1, the latter emits nothing at all. -/
theorem collect_emptyNodes_vs_decodeError :
    (collect (newExporter "u") (.ok emptyNodesResp)).emissions = [Emission.up 1] ∧
    (collect (newExporter "u") .decodeError).emissions = [] ∧
    (collect (newExporter "u") (.ok emptyNodesResp)).emissions
      ≠ (collect (newExporter "u") .decodeError).emissions :=
  ⟨rfl, rfl, fun h => nomatch h⟩

/-- C3: for a decoded payload whose `nodes` mapping does not have exactly
one entry, `Collect` logs a warning and proceeds, iterating over every node
entry; scalar (cluster-only-labelled) metrics end up holding the value of
the last-iterated node — witnessed here on a gauge
(`jvm_mem_heap_used_bytes`) and on a counter
(`transport_tx_size_bytes_total`) — last-node-wins, not summed. -/
theorem collect_node_count_warning_last_wins (uri : String) (resp : NodeStatsResponse)
    (hlen : resp.nodes.length ≠ 1) (hne : resp.nodes ≠ []) :
    (collect (newExporter uri) (.ok resp)).logs
        = [.nodeCountWarning resp.nodes.length] ∧
    getSeries (collect (newExporter uri) (.ok resp)).state.gauges "jvm_mem_heap_used_bytes"
        = some [([resp.clusterName], (resp.nodes.getLast hne).2.jvm.mem.heapUsed)] ∧
    getSeries (collect (newExporter uri) (.ok resp)).state.counters "transport_tx_size_bytes_total"
        = some [([resp.clusterName], (resp.nodes.getLast hne).2.transport.txSize)] := by
  refine ⟨?_, ?_, ?_⟩
  · show (if resp.nodes.length = 1 then _ else _) = _
    rw [if_neg hlen]
  · rw [getSeries_collect_ok_gauge]
    have hinit : getSeries (newExporter uri).gauges "jvm_mem_heap_used_bytes" = some [] := rfl
    rw [hinit, Option.map_some',
      cycleInserts_of_selectK _ _ _ _ (fun st => selectK_node_heapUsed resp.clusterName st)
        resp.nodes,
      applyInserts_map_getLast resp.clusterName (fun st => st.jvm.mem.heapUsed)
        resp.nodes hne]
  · rw [getSeries_collect_ok_counter]
    have hinit : getSeries (newExporter uri).counters "transport_tx_size_bytes_total"
        = some [] := rfl
    rw [hinit, Option.map_some',
      cycleInserts_of_selectK _ _ _ _ (fun st => selectK_node_txSize resp.clusterName st)
        resp.nodes,
      applyInserts_map_getLast resp.clusterName (fun st => st.transport.txSize)
        resp.nodes hne]

/-- C3 witness: the theorem applied to a concrete two-node payload; the
surviving scalar values are the second (last) node's. -/
theorem collect_node_count_warning_last_wins_witness :
    twoNodeResp.nodes.length ≠ 1 ∧ twoNodeResp.nodes ≠ [] ∧
    ((collect (newExporter "u") (.ok twoNodeResp)).logs = [.nodeCountWarning 2] ∧
     getSeries (collect (newExporter "u") (.ok twoNodeResp)).state.gauges
         "jvm_mem_heap_used_bytes" = some [(["es-two"], 22)] ∧
     getSeries (collect (newExporter "u") (.ok twoNodeResp)).state.counters
         "transport_tx_size_bytes_total" = some [(["es-two"], 9)]) :=
  ⟨by decide, by decide,
    collect_node_count_warning_last_wins "u" twoNodeResp (by decide) (by decide)⟩

/-- C4: in every successful cycle starting from instrument tables of the
shapes `NewExporter` builds, every emission is either the `up` gauge
reading 1 or a series whose first label name is `cluster`, whose first
label value is the decoded cluster name, and which carries exactly one
label value per label name (so vector metrics carry their dimension label
after `cluster`). -/
theorem collect_cluster_first_label (e : Exporter) (resp : NodeStatsResponse)
    (hg : shapeOf e.gauges = gShapes0) (hc : shapeOf e.counters = cShapes0) :
    ((collect e (.ok resp)).emissions).all (emOK resp.clusterName) = true := by
  have h0 : StateInv resp.clusterName
      ⟨e.uri, 1, resetAll e.gauges, resetAll e.counters⟩ := by
    refine ⟨?_, ?_, seriesInv_resetAll _ _, seriesInv_resetAll _ _⟩
    · show shapeOf (resetAll e.gauges) = _
      rw [shapeOf_resetAll, hg]
    · show shapeOf (resetAll e.counters) = _
      rw [shapeOf_resetAll, hc]
  obtain ⟨h2g, h2c, h2sg, h2sc⟩ := stateInv_remapAll resp.nodes _ h0
  have hcnt := emitVecs_emOK resp.clusterName .counter _
    (by rw [h2c]; exact cShapes0_cluster) h2sc
  have hgau := emitVecs_emOK resp.clusterName .gauge _
    (by rw [h2g]; exact gShapes0_cluster) h2sg
  have hup : (remapAll resp.clusterName
      ⟨e.uri, 1, resetAll e.gauges, resetAll e.counters⟩ resp.nodes).up = 1 :=
    remapAll_up _ _ _
  show (Emission.up _ :: (emitVecs .counter _ ++ emitVecs .gauge _)).all _ = true
  rw [List.all_cons, List.all_append, hup, hcnt, hgau]
  rfl

/-- C4 witness: the theorem applied to `NewExporter`'s tables and the
concrete end-to-end payload. -/
theorem collect_cluster_first_label_witness :
    shapeOf (newExporter "u").gauges = gShapes0 ∧
    shapeOf (newExporter "u").counters = cShapes0 ∧
    ((collect (newExporter "u") (.ok endToEndResp)).emissions).all (emOK "es-test") = true :=
  ⟨rfl, rfl, collect_cluster_first_label (newExporter "u") endToEndResp rfl rfl⟩

/-- C6: if cycle N observes some breaker set and cycle N+1's payload
contains no breaker named `breakerA` anywhere, then after cycle N+1 the
breaker-labelled vector metrics hold no series whose breaker label is
`breakerA`: the reset at the start of every cycle drops all previously
observed label combinations. -/
theorem collect_no_stale_breaker_series (e : Exporter) (resp1 resp2 : NodeStatsResponse)
    (h : ∀ nd ∈ resp2.nodes, ∀ b ∈ nd.2.breakers, b.1 ≠ "breakerA") :
    (((getSeries (collect (collect e (.ok resp1)).state (.ok resp2)).state.gauges
          "breakers_estimated_size_bytes").getD []).all
        (fun q => q.1.getD 1 "" != "breakerA")) = true ∧
    (((getSeries (collect (collect e (.ok resp1)).state (.ok resp2)).state.gauges
          "breakers_limit_size_bytes").getD []).all
        (fun q => q.1.getD 1 "" != "breakerA")) = true := by
  constructor
  · rw [getSeries_collect_ok_gauge]
    cases hres : getSeries (collect e (.ok resp1)).state.gauges
        "breakers_estimated_size_bytes" with
    | none => rfl
    | some s0 =>
        simp only [Option.map_some', Option.getD_some]
        rw [List.all_eq_true]
        intro q hq
        rcases mem_applyInserts _ _ hq with h2 | h2
        · exact absurd h2 (List.not_mem_nil q)
        · obtain ⟨p, hp, hq1⟩ := h2
          obtain ⟨nd, hnd, hpsel⟩ := mem_cycleInserts hp
          rw [selectK_node_brEst, List.mem_map] at hpsel
          obtain ⟨b, hb, rfl⟩ := hpsel
          rw [hq1]
          have hne := h nd hnd b hb
          simp [List.getD, hne]
  · rw [getSeries_collect_ok_gauge]
    cases hres : getSeries (collect e (.ok resp1)).state.gauges
        "breakers_limit_size_bytes" with
    | none => rfl
    | some s0 =>
        simp only [Option.map_some', Option.getD_some]
        rw [List.all_eq_true]
        intro q hq
        rcases mem_applyInserts _ _ hq with h2 | h2
        · exact absurd h2 (List.not_mem_nil q)
        · obtain ⟨p, hp, hq1⟩ := h2
          obtain ⟨nd, hnd, hpsel⟩ := mem_cycleInserts hp
          rw [selectK_node_brLim, List.mem_map] at hpsel
          obtain ⟨b, hb, rfl⟩ := hpsel
          rw [hq1]
          have hne := h nd hnd b hb
          simp [List.getD, hne]

/-- C6 witness: the theorem applied to concrete cycles — cycle N's payload
reports `breakerA`, cycle N+1's payload reports only `parent`. -/
theorem collect_no_stale_breaker_series_witness :
    (((getSeries (collect (collect (newExporter "u") (.ok breakerAResp)).state
          (.ok noBreakerAResp)).state.gauges "breakers_estimated_size_bytes").getD []).all
        (fun q => q.1.getD 1 "" != "breakerA")) = true ∧
    (((getSeries (collect (collect (newExporter "u") (.ok breakerAResp)).state
          (.ok noBreakerAResp)).state.gauges "breakers_limit_size_bytes").getD []).all
        (fun q => q.1.getD 1 "" != "breakerA")) = true :=
  collect_no_stale_breaker_series (newExporter "u") breakerAResp noBreakerAResp (by decide)

/-- C7: on the end-to-end payload (cluster `es-test`, one node with
`jvm.mem.heapUsed = 1048576` and breaker `fielddata` with estimated size
100), a successful cycle emits `jvm_mem_heap_used_bytes` with label
`cluster="es-test"` and value 1048576, and `breakers_estimated_size_bytes`
with labels `cluster="es-test"`, `breaker="fielddata"` and value 100. -/
theorem collect_end_to_end :
    Emission.series .gauge "jvm_mem_heap_used_bytes" ["cluster"] ["es-test"] 1048576
        ∈ (collect (newExporter "http://localhost:9200/_nodes/_local/stats")
            (.ok endToEndResp)).emissions ∧
    Emission.series .gauge "breakers_estimated_size_bytes" ["cluster", "breaker"]
        ["es-test", "fielddata"] 100
        ∈ (collect (newExporter "http://localhost:9200/_nodes/_local/stats")
            (.ok endToEndResp)).emissions := by
  decide

/-- C9: every metric-name lookup the remapping step performs — one per
`Set` call in `nodeUpdates`, against the table of the call's kind — hits a
key that `NewExporter` registered, so no lookup returns an absent
instrument handle. -/
theorem collect_lookups_registered (uri cn : String) (st : NodeStats) :
    ∀ u ∈ nodeUpdates cn st,
      (getSeries (kindTable (newExporter uri) u.kind) u.name).isSome = true := by
  intro u hu
  rw [nodeUpdates] at hu
  rcases List.mem_append.mp hu with hu | hu
  · rcases List.mem_append.mp hu with hu | hu
    · obtain ⟨p, _, (rfl | rfl)⟩ := mem_gcUpdates hu <;> rfl
    · obtain ⟨p, _, (rfl | rfl)⟩ := mem_breakerUpdates hu <;> rfl
  · simp only [scalarUpdates, List.mem_cons, List.not_mem_nil, or_false] at hu
    rcases hu with rfl|rfl|rfl|rfl|rfl|rfl|rfl|rfl|rfl|rfl|rfl|rfl|rfl|rfl|rfl|rfl|rfl|rfl|rfl|rfl|rfl|rfl|rfl|rfl|rfl <;> rfl

/-- C9 witness: the theorem applied to a concrete update of a concrete
node-stats record. -/
theorem collect_lookups_registered_witness :
    (⟨.gauge, "jvm_mem_heap_committed_bytes", ["c"], 0⟩ : Update) ∈ nodeUpdates "c" zeroStats ∧
    (getSeries (kindTable (newExporter "u") .gauge) "jvm_mem_heap_committed_bytes").isSome
      = true :=
  ⟨by decide, collect_lookups_registered "u" "c" zeroStats
    ⟨.gauge, "jvm_mem_heap_committed_bytes", ["c"], 0⟩ (by decide)⟩
